import Mathlib

/-!
Shallow embedding of the liquidity-concentration monitor in src/index.js.

The source is a single JavaScript file that polls a Uniswap V3 pool and a
fixed roster of addresses, computes each address share of the active
in-range liquidity, smooths it with a 72-entry FIFO window, and appends one
record per address per cycle to a CSV log.

Modelling decisions, each tied to the source:
  - JavaScript numbers are IEEE 754 doubles.  Where the source converts a
    large on-chain integer with Number() (lines 96, 99, 173) we model the
    conversion with jsNumber, an exact round-to-nearest-even of a natural
    number to the float64 integer grid, and float addition of such values
    with fladd.  Quantities that stay far below 2^53 (ticks, fees, window
    contents treated as exact percentages) are modelled as Int / Nat / Rat.
  - Display formatting (toFixed, timestamps, the price computed on line
    170) is not part of any claim and is left out of the record model; the
    record keeps the numeric fields and the tick column, where none stands
    for the literal N/A marker of lines 231.
  - Awaited RPC calls that can throw are modelled as Except values passed
    in as arguments; a catch block that swallows the error corresponds to
    the Except.error branch of the embedded function.
  - The mutable rollingData registry (line 50) keyed by address is modelled
    as a function from addresses to the list of stored window values; the
    positionsByAddress registry (line 67) as a function from addresses to
    position lists.
-/

/-- Token address constant USDC_ADDRESS from line 42 of the source. -/
def USDC_ADDRESS : String := "0xA0b86991C6218b36c1d19D4a2e9Eb0cE3606EB48"

/-- Token address constant OTHER_TOKEN from line 43 of the source. -/
def OTHER_TOKEN : String := "0x77E06c9eCCf2E797fd462A92B6D7642EF85b0A44"

/-- Fee tier constant FEE from line 44 of the source. -/
def FEE : Nat := 10000

/-- Zero address constant ZERO_ADDRESS from line 47 of the source. -/
def ZERO_ADDRESS : String := "0x0000000000000000000000000000000000000000"

/-- Window capacity WINDOW_SIZE from line 51 of the source. -/
def WINDOW_SIZE : Nat := 72

/-- Models the JavaScript toLowerCase used in the filter on lines 102-108. -/
def jsToLower (s : String) : String := s.map Char.toLower

/-- Position tuple as returned by the on-chain position manager (ABI on
line 22): token0, token1, fee (uint24), tickLower and tickUpper (int24),
liquidity (uint128).  Fields the source never reads are omitted. -/
structure RawPosition where
  token0 : String
  token1 : String
  fee : Nat
  tickLower : Int
  tickUpper : Int
  liquidity : Nat
deriving Repr, DecidableEq

/-- Position object built on lines 93-99 of the source, after the fields
have gone through the JavaScript Number() conversion where the source
applies it.  The liquidity field holds the float64 value as a natural
number (see jsNumber). -/
structure Position where
  token0 : String
  token1 : String
  fee : Nat
  tickLower : Int
  tickUpper : Int
  liquidity : Nat
deriving Repr, DecidableEq

/-- Floor base-2 logarithm for naturals below 2^128, computed by counting
which powers of two fit; kernel-computable helper for jsNumber.  The
source only converts uint128 and uint24 quantities, all below 2^128. -/
def exponentOf (n : Nat) : Nat :=
  ((List.range 128).filter (fun e => 2 ^ e ≤ n)).length - 1

/-- Models the JavaScript Number() conversion of a non-negative on-chain
integer below 2^128 (applied on lines 96, 99 and 173 of the source): the
nearest IEEE 754 double, ties to even, expressed as a natural number.
Integers below 2^53 are exactly representable; above that the value is
rounded to a multiple of 2^e where e is the exponent excess over the
52-bit mantissa. -/
def jsNumber (n : Nat) : Nat :=
  if n < 2 ^ 53 then n
  else
    let e := exponentOf n - 52
    let q := n / 2 ^ e
    let r := n % 2 ^ e
    if 2 * r < 2 ^ e then q * 2 ^ e
    else if 2 ^ e < 2 * r then (q + 1) * 2 ^ e
    else if q % 2 = 0 then q * 2 ^ e else (q + 1) * 2 ^ e

/-- Models the JavaScript + on two float64 integer values (the += on line
181 of the source): the exact sum rounded back to the float64 grid. -/
def fladd (a b : Nat) : Nat := jsNumber (a + b)

/-- Field-by-field conversion done by the map on lines 93-99 of the source:
fee is a uint24 so Number() is exact on it; liquidity is a uint128 and goes
through the float64 rounding. -/
def convertPosition (p : RawPosition) : Position :=
  { token0 := p.token0
    token1 := p.token1
    fee := p.fee
    tickLower := p.tickLower
    tickUpper := p.tickUpper
    liquidity := jsNumber p.liquidity }

/-- Matching predicate of the filter on lines 100-112 of the source: the
position belongs to the configured token pair, in either order, compared
lowercase, and has the configured fee tier. -/
def matchesTargetPool (pos : Position) : Bool :=
  let isDirect :=
    (jsToLower pos.token0 == jsToLower USDC_ADDRESS) &&
    (jsToLower pos.token1 == jsToLower OTHER_TOKEN) &&
    (pos.fee == FEE)
  let isReversed :=
    (jsToLower pos.token0 == jsToLower OTHER_TOKEN) &&
    (jsToLower pos.token1 == jsToLower USDC_ADDRESS) &&
    (pos.fee == FEE)
  isDirect || isReversed

/-- Models fetchPositionsForAddress (lines 82-117 of the source).  The
chain of awaited RPC calls is abstracted as one Except argument: the error
case stands for any of the awaits throwing, and the ok case carries the
raw positions the position manager returned.  The catch on lines 113-116
logs and returns the empty list; a zero balance returns the empty list on
line 86; otherwise the raw positions are converted and filtered. -/
def fetchPositionsForAddress (src : Except String (List RawPosition)) :
    List Position :=
  match src with
  | .error _ => []
  | .ok rawPositions =>
    (rawPositions.map convertPosition).filter matchesTargetPool

/-- Models isPositionActive (lines 153-155 of the source): the current tick
lies in the half-open interval from tickLower (inclusive) to tickUpper
(exclusive). -/
def isPositionActive (position : Position) (currentTick : Int) : Bool :=
  decide (position.tickLower ≤ currentTick) &&
  decide (currentTick < position.tickUpper)

/-- Per-address active-liquidity summation of lines 178-183 of the source:
a running float64 accumulator starting at 0, adding the stored liquidity of
every active position. -/
def computeActiveLiquidity (positions : List Position) (currentTick : Int) :
    Nat :=
  positions.foldl
    (fun activeLiquidity pos =>
      if isPositionActive pos currentTick then
        fladd activeLiquidity pos.liquidity
      else activeLiquidity)
    0

/-- Exact mathematical sum of the raw on-chain liquidity of the active
positions, for comparison with the float64 computation of the source. -/
def activeRawSum (ps : List RawPosition) (t : Int) : Nat :=
  ((ps.filter (fun p => isPositionActive (convertPosition p) t)).map
    RawPosition.liquidity).sum

/-- Models the push-then-evict step on the rolling window (lines 192-193,
209-210 and 227-228 of the source): append the new value, then if the
length exceeds WINDOW_SIZE remove the oldest element (the shift call). -/
def pushValue (values : List ℚ) (x : ℚ) : List ℚ :=
  let v := values ++ [x]
  if WINDOW_SIZE < v.length then v.drop 1 else v

/-- Models the rolling average computed on lines 194-195, 211-212 and
229-230 of the source: sum of the stored values divided by their count. -/
def rollingAverage (values : List ℚ) : ℚ :=
  values.sum / (values.length : ℚ)

/-- Pool state read each cycle on lines 166-173 of the source: slot0 tick,
slot0 sqrtPriceX96 and the pool liquidity, all before any Number()
conversion. -/
structure PoolSnapshot where
  tick : Int
  sqrtPriceX96 : Nat
  totalLiquidity : Nat
deriving Repr, DecidableEq

/-- One CSV row as assembled on lines 197, 213 and 231 of the source,
keeping the numeric fields; currentTick none models the N/A marker of the
no-pool rows.  The timestamp and the displayed price carry no claim
content and are omitted. -/
structure TimeSeriesRecord where
  address : String
  activeLiquidity : Nat
  percentageOfDepth : ℚ
  rollingAvg : ℚ
  currentTick : Option Int
deriving Repr, DecidableEq

/-- Per-address body shared verbatim by the three per-address loops of the
source (lines 190-199, 205-215 and 225-233): push one value into the
rolling window of the address, compute the rolling average of the new
window contents, and append one record built from the address and that
average.  The first component of the state is the window registry, the
second the records emitted so far this cycle. -/
def processAddress (pushed : String → ℚ)
    (makeRecord : String → ℚ → TimeSeriesRecord)
    (acc : (String → List ℚ) × List TimeSeriesRecord) (addr : String) :
    (String → List ℚ) × List TimeSeriesRecord :=
  let newValues := pushValue (acc.1 addr) (pushed addr)
  let rollingAvg := rollingAverage newValues
  (fun a => if a = addr then newValues else acc.1 a,
   acc.2 ++ [makeRecord addr rollingAvg])

/-- Row format of line 197 of the source, the zero-total-liquidity branch:
the active liquidity and percentage columns hold the literal zero, the tick
column still shows the live tick. -/
def zeroRecord (currentTick : Int) (addr : String) (rollingAvg : ℚ) :
    TimeSeriesRecord :=
  { address := addr
    activeLiquidity := 0
    percentageOfDepth := 0
    rollingAvg := rollingAvg
    currentTick := some currentTick }

/-- Percentage share computed on line 207 of the source for one address:
active liquidity of the address over the pool total, times 100. -/
def sharePercentageOf (positionsByAddress : String → List Position)
    (slot0 : PoolSnapshot) (addr : String) : ℚ :=
  (computeActiveLiquidity (positionsByAddress addr) slot0.tick : ℚ)
    / (jsNumber slot0.totalLiquidity : ℚ) * 100

/-- Row format of line 213 of the source, the main branch: the computed
active liquidity and percentage share for the address. -/
def shareRecord (positionsByAddress : String → List Position)
    (slot0 : PoolSnapshot) (addr : String) (rollingAvg : ℚ) :
    TimeSeriesRecord :=
  { address := addr
    activeLiquidity :=
      computeActiveLiquidity (positionsByAddress addr) slot0.tick
    percentageOfDepth := sharePercentageOf positionsByAddress slot0 addr
    rollingAvg := rollingAvg
    currentTick := some slot0.tick }

/-- Row format of line 231 of the source, the no-pool loop: zero columns
and the N/A markers for tick and price. -/
def noPoolRecord (addr : String) (rollingAvg : ℚ) : TimeSeriesRecord :=
  { address := addr
    activeLiquidity := 0
    percentageOfDepth := 0
    rollingAvg := rollingAvg
    currentTick := none }

/-- Models updateLoop (lines 164-219 of the source).  The two awaited pool
reads are abstracted as one Except PoolSnapshot argument; the catch on
lines 216-218 only logs, so the error branch returns the windows unchanged
and emits no record.  On success the pool total liquidity goes through
Number(); if it is zero the loop on lines 190-199 pushes 0 and logs the
literal zero row for every address, otherwise the loop on lines 205-215
pushes and logs the computed percentage share. -/
def updateLoop (positionsByAddress : String → List Position)
    (addresses : List String) (fetchResult : Except String PoolSnapshot)
    (windows : String → List ℚ) :
    (String → List ℚ) × List TimeSeriesRecord :=
  match fetchResult with
  | .error _ => (windows, [])
  | .ok slot0 =>
    if jsNumber slot0.totalLiquidity = 0 then
      addresses.foldl
        (processAddress (fun _ => 0) (zeroRecord slot0.tick))
        (windows, [])
    else
      addresses.foldl
        (processAddress (sharePercentageOf positionsByAddress slot0)
          (shareRecord positionsByAddress slot0))
        (windows, [])

/-- Models updateLoopNoPool (lines 222-235 of the source): push 0 into
every window and emit one row per address with the N/A markers. -/
def updateLoopNoPool (addresses : List String)
    (windows : String → List ℚ) :
    (String → List ℚ) × List TimeSeriesRecord :=
  addresses.foldl
    (processAddress (fun _ => 0) noPoolRecord)
    (windows, [])

/-- Total filtered position count across the roster, computed on lines
132-135 of the source. -/
def totalPositions (positionsByAddress : String → List Position)
    (addresses : List String) : Nat :=
  addresses.foldl (fun acc addr => acc + (positionsByAddress addr).length) 0

/-- Models getTargetPoolAddress (lines 131-150 of the source).  The factory
getPool call is abstracted as an Except String String registry argument;
when the total position count is zero the function returns null (ok none)
on line 138 without consulting the registry.  A falsy or zero pool address
raises the not-found error of line 146. -/
def getTargetPoolAddress (positionsByAddress : String → List Position)
    (addresses : List String) (registry : Except String String) :
    Except String (Option String) :=
  if totalPositions positionsByAddress addresses = 0 then Except.ok none
  else
    match registry with
    | .error e => Except.error e
    | .ok poolAddress =>
      if poolAddress = "" ∨ poolAddress = ZERO_ADDRESS then
        Except.error "Target pool not found."
      else Except.ok (some poolAddress)

/-- Pool resolution as performed in main (lines 247-253 of the source): a
thrown resolution error is caught and turned into null. -/
def resolvePoolAddress (positionsByAddress : String → List Position)
    (addresses : List String) (registry : Except String String) :
    Option String :=
  match getTargetPoolAddress positionsByAddress addresses registry with
  | .error _ => none
  | .ok p => p

/-- One scheduler cycle as dispatched by main (lines 255-267 of the
source): with no resolved pool the no-pool loop runs and the fetch is never
made; with a pool the active loop runs against the fetch outcome of that
cycle. -/
def mainCycle (positionsByAddress : String → List Position)
    (addresses : List String) (registry : Except String String)
    (fetch : Except String PoolSnapshot) (windows : String → List ℚ) :
    (String → List ℚ) × List TimeSeriesRecord :=
  match resolvePoolAddress positionsByAddress addresses registry with
  | none => updateLoopNoPool addresses windows
  | some _ => updateLoop positionsByAddress addresses fetch windows

/-- A whole run of the fixed-mode scheduler: the mode is decided once from
the startup pool resolution and every cycle consumes the next fetch
outcome, threading the window registry and accumulating the emitted
records. -/
def runCycles (positionsByAddress : String → List Position)
    (addresses : List String) (registry : Except String String)
    (fetches : List (Except String PoolSnapshot))
    (windows : String → List ℚ) :
    (String → List ℚ) × List TimeSeriesRecord :=
  fetches.foldl
    (fun acc fetch =>
      let step := mainCycle positionsByAddress addresses registry fetch acc.1
      (step.1, acc.2 ++ step.2))
    (windows, [])

/-- Fixture: the position of test scenario A of the spec, liquidity 500
with range -100 to 100, belonging to the configured pair and fee tier. -/
def samplePosition : Position :=
  { token0 := USDC_ADDRESS
    token1 := OTHER_TOKEN
    fee := FEE
    tickLower := -100
    tickUpper := 100
    liquidity := 500 }

/-- Fixture: a position registry giving every address the sample
position. -/
def pbaSample : String → List Position := fun _ => [samplePosition]

/-- Fixture: a pool snapshot whose total liquidity reads zero. -/
def zeroSnap : PoolSnapshot :=
  { tick := 0, sqrtPriceX96 := 0, totalLiquidity := 0 }

/-- Fixture: a live pool snapshot with nonzero total liquidity. -/
def liveSnap : PoolSnapshot :=
  { tick := 5, sqrtPriceX96 := 1, totalLiquidity := 1000 }

/-- Fixture: the empty window registry every run starts from (line 125 of
the source initialises every address to an empty list). -/
def emptyWindows : String → List ℚ := fun _ => []

/-- Fixture: a raw on-chain position with small liquidity 500. -/
def rawSample : RawPosition :=
  { token0 := USDC_ADDRESS
    token1 := OTHER_TOKEN
    fee := FEE
    tickLower := -100
    tickUpper := 100
    liquidity := 500 }

/-- Fixture: a raw on-chain position whose liquidity 2^53 + 1 exceeds the
float64 safe-integer range while staying far below 2^64. -/
def rawBig : RawPosition :=
  { token0 := USDC_ADDRESS
    token1 := OTHER_TOKEN
    fee := FEE
    tickLower := -100
    tickUpper := 100
    liquidity := 2 ^ 53 + 1 }

/-- Fixture: the push sequence 1, 2, ..., 73 of test scenario D of the
spec. -/
def wxs : List ℚ := (List.range 73).map (fun i => (i : ℚ) + 1)

/-- Fixture: a registry in which the factory does know a canonical pool
for the configured pair. -/
def registryWithPool : Except String String :=
  Except.ok "0x1234567890123456789012345678901234567890"

/-- Suffix of the last n elements of a list, the shape every rolling
window has after enough pushes. -/
def lastN (n : Nat) (l : List ℚ) : List ℚ := l.drop (l.length - n)

lemma jsNumber_of_lt {n : Nat} (h : n < 2 ^ 53) : jsNumber n = n := by
  rw [jsNumber, if_pos h]

lemma jsNumber_zero : jsNumber 0 = 0 :=
  jsNumber_of_lt (by norm_num)

lemma fladd_of_lt {a b : Nat} (h : a + b < 2 ^ 53) : fladd a b = a + b := by
  rw [fladd, jsNumber_of_lt h]

lemma foldl_processAddress_snd {α : Type} (pushed : String → ℚ)
    (mk : String → ℚ → TimeSeriesRecord) (f : TimeSeriesRecord → α)
    (g : String → α) (hmk : ∀ a q, f (mk a q) = g a) :
    ∀ (addrs : List String) (w0 : String → List ℚ)
      (rs0 : List TimeSeriesRecord),
      ((addrs.foldl (processAddress pushed mk) (w0, rs0)).2).map f
        = rs0.map f ++ addrs.map g := by
  intro addrs
  induction addrs with
  | nil => intro w0 rs0; simp
  | cons a as ih =>
    intro w0 rs0
    simp only [List.foldl_cons, processAddress]
    rw [ih]
    simp [hmk]

lemma foldl_processAddress_fst_of_not_mem (pushed : String → ℚ)
    (mk : String → ℚ → TimeSeriesRecord) :
    ∀ (addrs : List String) (w0 : String → List ℚ)
      (rs0 : List TimeSeriesRecord) (a : String), a ∉ addrs →
      (addrs.foldl (processAddress pushed mk) (w0, rs0)).1 a = w0 a := by
  intro addrs
  induction addrs with
  | nil => intro w0 rs0 a _; rfl
  | cons b bs ih =>
    intro w0 rs0 a ha
    simp only [List.mem_cons, not_or] at ha
    simp only [List.foldl_cons, processAddress]
    rw [ih _ _ _ ha.2]
    simp [ha.1]

lemma foldl_processAddress_fst_of_nodup (pushed : String → ℚ)
    (mk : String → ℚ → TimeSeriesRecord) :
    ∀ (addrs : List String) (w0 : String → List ℚ)
      (rs0 : List TimeSeriesRecord) (a : String),
      addrs.Nodup → a ∈ addrs →
      (addrs.foldl (processAddress pushed mk) (w0, rs0)).1 a
        = pushValue (w0 a) (pushed a) := by
  intro addrs
  induction addrs with
  | nil => intro w0 rs0 a _ h; cases h
  | cons b bs ih =>
    intro w0 rs0 a hnd hmem
    have hnd' := List.nodup_cons.mp hnd
    rcases List.mem_cons.mp hmem with h | h
    · subst h
      simp only [List.foldl_cons, processAddress]
      rw [foldl_processAddress_fst_of_not_mem _ _ _ _ _ _ hnd'.1]
      simp
    · have hab : a ≠ b := fun e => hnd'.1 (e ▸ h)
      simp only [List.foldl_cons, processAddress]
      rw [ih _ _ _ hnd'.2 h]
      simp [hab]

lemma length_lastN_le (n : Nat) (l : List ℚ) : (lastN n l).length ≤ n := by
  simp only [lastN, List.length_drop]
  omega

lemma lastN_append (n : Nat) (l m : List ℚ) :
    lastN n (lastN n l ++ m) = lastN n (l ++ m) := by
  simp only [lastN, List.length_append, List.length_drop]
  rw [← List.drop_append_of_le_length
    (show l.length - n ≤ l.length by omega), List.drop_drop]
  congr 1
  omega

lemma pushValue_eq_lastN (l : List ℚ) (x : ℚ) (h : l.length ≤ WINDOW_SIZE) :
    pushValue l x = lastN WINDOW_SIZE (l ++ [x]) := by
  simp only [pushValue, lastN, List.length_append, List.length_singleton]
  by_cases hc : WINDOW_SIZE < l.length + 1
  · rw [if_pos hc]
    congr 1
    simp only [WINDOW_SIZE] at h hc ⊢
    omega
  · rw [if_neg hc]
    have : l.length + 1 - WINDOW_SIZE = 0 := by omega
    rw [this, List.drop_zero]

lemma foldl_pushValue_lastN (xs : List ℚ) : ∀ l : List ℚ,
    xs.foldl pushValue (lastN WINDOW_SIZE l) = lastN WINDOW_SIZE (l ++ xs) := by
  induction xs with
  | nil => intro l; simp
  | cons x xs ih =>
    intro l
    rw [List.foldl_cons,
      pushValue_eq_lastN _ _ (length_lastN_le WINDOW_SIZE l),
      lastN_append, ih (l ++ [x])]
    simp

lemma foldl_pushValue_nil (xs : List ℚ) :
    xs.foldl pushValue [] = lastN WINDOW_SIZE xs := by
  have h0 : lastN WINDOW_SIZE ([] : List ℚ) = [] := rfl
  have := foldl_pushValue_lastN xs []
  rw [h0] at this
  simpa using this

lemma computeActive_go (t : Int) : ∀ (ps : List RawPosition) (acc : Nat),
    acc + (ps.map RawPosition.liquidity).sum < 2 ^ 53 →
    (ps.map convertPosition).foldl
      (fun activeLiquidity pos =>
        if isPositionActive pos t then fladd activeLiquidity pos.liquidity
        else activeLiquidity) acc
      = acc + activeRawSum ps t := by
  intro ps
  induction ps with
  | nil => intro acc _; simp [activeRawSum]
  | cons p ps ih =>
    intro acc h
    simp only [List.map_cons, List.sum_cons] at h
    have hp : p.liquidity < 2 ^ 53 := by omega
    have hstep : (convertPosition p).liquidity = p.liquidity := by
      simp [convertPosition, jsNumber_of_lt hp]
    have htick : isPositionActive (convertPosition p) t
        = isPositionActive (convertPosition p) t := rfl
    simp only [List.map_cons, List.foldl_cons]
    by_cases hact : isPositionActive (convertPosition p) t
    · rw [if_pos hact, hstep, fladd_of_lt (by omega),
        ih (acc + p.liquidity) (by omega)]
      simp only [activeRawSum, List.filter_cons, hact, if_pos]
      simp [activeRawSum, List.map_cons, List.sum_cons]
      omega
    · rw [if_neg hact, ih acc (by omega)]
      simp only [activeRawSum, List.filter_cons]
      rw [if_neg (by simpa using hact)]

lemma updateLoop_ok_zero (pba : String → List Position)
    (addresses : List String) (snap : PoolSnapshot) (w : String → List ℚ)
    (h0 : snap.totalLiquidity = 0) :
    updateLoop pba addresses (Except.ok snap) w
      = addresses.foldl
          (processAddress (fun _ => 0) (zeroRecord snap.tick)) (w, []) := by
  simp [updateLoop, h0, jsNumber_zero]

/-- C1: a position is classified active exactly when the current tick lies
in the half-open range from tickLower inclusive to tickUpper exclusive; in
particular the tick equal to tickUpper is inactive and the tick equal to
tickLower is active. -/
theorem C1_half_open_interval (p : Position) (t : Int)
    (h : p.tickLower < p.tickUpper) :
    (isPositionActive p t = true ↔ p.tickLower ≤ t ∧ t < p.tickUpper) ∧
    isPositionActive p p.tickUpper = false ∧
    isPositionActive p p.tickLower = true := by
  refine ⟨?_, ?_, ?_⟩
  · simp [isPositionActive]
  · simp [isPositionActive]
  · simp [isPositionActive]
    omega

/-- Witness for C1 at the scenario-A position and tick zero. -/
theorem C1_half_open_interval_witness :
    samplePosition.tickLower < samplePosition.tickUpper ∧
    ((isPositionActive samplePosition 0 = true ↔
        samplePosition.tickLower ≤ 0 ∧ (0 : Int) < samplePosition.tickUpper) ∧
      isPositionActive samplePosition samplePosition.tickUpper = false ∧
      isPositionActive samplePosition samplePosition.tickLower = true) :=
  ⟨by decide, C1_half_open_interval samplePosition 0 (by decide)⟩

/-- C5: in active mode, when the pool-state fetch fails the whole cycle is
skipped atomically: the window registry is returned unchanged and no
record is emitted. -/
theorem C5_failed_fetch_skips_cycle (pba : String → List Position)
    (addresses : List String) (e : String) (w : String → List ℚ) :
    updateLoop pba addresses (Except.error e) w = (w, []) := rfl

/-- C7: when the position data source throws, or returns zero positions,
fetchPositionsForAddress yields the empty list; being a total function of
the Except outcome it never propagates the failure. -/
theorem C7_failure_yields_empty (e : String) :
    fetchPositionsForAddress (Except.error e) = [] ∧
    fetchPositionsForAddress (Except.ok []) = [] := ⟨rfl, rfl⟩

/-- C8: the token-pair and fee-tier matching filter is idempotent and
order-preserving: filtering an already-filtered list is the identity, a
filtered list is a sublist of the original, and the output of
fetchPositionsForAddress is a fixed point of the filter. -/
theorem C8_filter_idempotent (l : List Position)
    (src : Except String (List RawPosition)) :
    (l.filter matchesTargetPool).filter matchesTargetPool
        = l.filter matchesTargetPool ∧
    (l.filter matchesTargetPool).Sublist l ∧
    (fetchPositionsForAddress src).filter matchesTargetPool
        = fetchPositionsForAddress src := by
  refine ⟨?_, List.filter_sublist _, ?_⟩
  · rw [List.filter_filter]
    simp
  · cases src with
    | error e => rfl
    | ok raw => simp [fetchPositionsForAddress, List.filter_filter]

/-- C4: whatever the pool state of a successfully sampled cycle (snapshot
with zero or nonzero total liquidity) and in the no-pool mode, the cycle
emits exactly one record per tracked address, in roster order.  The
remaining case, a failed fetch, is the skipped cycle of C5. -/
theorem C4_one_record_per_address (pba : String → List Position)
    (addresses : List String) (snap : PoolSnapshot) (w : String → List ℚ) :
    ((updateLoop pba addresses (Except.ok snap) w).2).map
        TimeSeriesRecord.address = addresses ∧
    ((updateLoopNoPool addresses w).2).map TimeSeriesRecord.address
        = addresses := by
  constructor
  · simp only [updateLoop]
    split
    · have h := foldl_processAddress_snd (fun _ => (0 : ℚ))
        (zeroRecord snap.tick) TimeSeriesRecord.address (fun a => a)
        (fun a q => rfl) addresses w []
      simpa using h
    · have h := foldl_processAddress_snd (sharePercentageOf pba snap)
        (shareRecord pba snap) TimeSeriesRecord.address (fun a => a)
        (fun a q => rfl) addresses w []
      simpa using h
  · have h := foldl_processAddress_snd (fun _ => (0 : ℚ)) noPoolRecord
      TimeSeriesRecord.address (fun a => a) (fun a q => rfl) addresses w []
    rw [updateLoopNoPool]
    simpa using h

/-- C3: when the sampled pool total liquidity is zero, every record of the
cycle carries percentage exactly 0 and active liquidity 0, and the value
pushed into every tracked window is exactly 0. -/
theorem C3_zero_total_liquidity (pba : String → List Position)
    (addresses : List String) (snap : PoolSnapshot) (w : String → List ℚ)
    (h0 : snap.totalLiquidity = 0) (hnd : addresses.Nodup) :
    ((updateLoop pba addresses (Except.ok snap) w).2).map
        TimeSeriesRecord.percentageOfDepth
        = addresses.map (fun _ => (0 : ℚ)) ∧
    ((updateLoop pba addresses (Except.ok snap) w).2).map
        TimeSeriesRecord.activeLiquidity = addresses.map (fun _ => 0) ∧
    addresses.map
        (fun addr => (updateLoop pba addresses (Except.ok snap) w).1 addr)
        = addresses.map (fun addr => pushValue (w addr) 0) := by
  rw [updateLoop_ok_zero pba addresses snap w h0]
  refine ⟨?_, ?_, ?_⟩
  · have h := foldl_processAddress_snd (fun _ => (0 : ℚ))
      (zeroRecord snap.tick) TimeSeriesRecord.percentageOfDepth
      (fun _ => (0 : ℚ)) (fun a q => rfl) addresses w []
    simpa using h
  · have h := foldl_processAddress_snd (fun _ => (0 : ℚ))
      (zeroRecord snap.tick) TimeSeriesRecord.activeLiquidity
      (fun _ => 0) (fun a q => rfl) addresses w []
    simpa using h
  · apply List.map_congr_left
    intro a ha
    exact foldl_processAddress_fst_of_nodup _ _ addresses w [] a hnd ha

/-- Witness for C3 on a one-address roster against the zero-liquidity
snapshot. -/
theorem C3_zero_total_liquidity_witness :
    zeroSnap.totalLiquidity = 0 ∧
    ((updateLoop pbaSample ["0xabc"] (Except.ok zeroSnap) emptyWindows).2).map
        TimeSeriesRecord.percentageOfDepth
        = ["0xabc"].map (fun _ => (0 : ℚ)) ∧
    ((updateLoop pbaSample ["0xabc"] (Except.ok zeroSnap) emptyWindows).2).map
        TimeSeriesRecord.activeLiquidity = ["0xabc"].map (fun _ => 0) ∧
    ["0xabc"].map
        (fun addr =>
          (updateLoop pbaSample ["0xabc"] (Except.ok zeroSnap)
            emptyWindows).1 addr)
        = ["0xabc"].map (fun addr => pushValue (emptyWindows addr) 0) := by
  have h := C3_zero_total_liquidity pbaSample ["0xabc"] zeroSnap emptyWindows
    rfl (by simp)
  exact ⟨rfl, h.1, h.2.1, h.2.2⟩

/-- C10: in the zero-total-liquidity branch of an active cycle the active
liquidity written to every record is the literal 0, whatever the cached
positions of the addresses sum to at the current tick. -/
theorem C10_zero_branch_literal_zero (pba : String → List Position)
    (addresses : List String) (snap : PoolSnapshot) (w : String → List ℚ)
    (h0 : snap.totalLiquidity = 0) :
    ((updateLoop pba addresses (Except.ok snap) w).2).map
        TimeSeriesRecord.activeLiquidity = addresses.map (fun _ => 0) := by
  rw [updateLoop_ok_zero pba addresses snap w h0]
  have h := foldl_processAddress_snd (fun _ => (0 : ℚ))
    (zeroRecord snap.tick) TimeSeriesRecord.activeLiquidity
    (fun _ => 0) (fun a q => rfl) addresses w []
  simpa using h

/-- Witness for C10: the sole tracked address has a cached position whose
computed active liquidity at the current tick is 500, yet the record of the
zero-liquidity cycle shows the literal 0. -/
theorem C10_zero_branch_literal_zero_witness :
    ((updateLoop pbaSample ["0xabc"] (Except.ok zeroSnap) emptyWindows).2).map
        TimeSeriesRecord.activeLiquidity = ["0xabc"].map (fun _ => 0) ∧
    computeActiveLiquidity (pbaSample "0xabc") zeroSnap.tick = 500 :=
  ⟨C10_zero_branch_literal_zero pbaSample ["0xabc"] zeroSnap emptyWindows rfl,
   by decide⟩

/-- C2: pushing any 72 + k values (k positive) into an initially empty
rolling window leaves at most 72 entries, the window holds exactly the
most recent 72 pushed values with the oldest k evicted, and the rolling
average is their arithmetic mean. -/
theorem C2_rolling_window (xs : List ℚ) (k : Nat) (hk : 0 < k)
    (hlen : xs.length = WINDOW_SIZE + k) :
    (xs.foldl pushValue []).length ≤ WINDOW_SIZE ∧
    xs.foldl pushValue [] = xs.drop k ∧
    rollingAverage (xs.foldl pushValue [])
      = (xs.drop k).sum / (WINDOW_SIZE : ℚ) := by
  have hw : xs.foldl pushValue [] = xs.drop k := by
    rw [foldl_pushValue_nil, lastN]
    congr 1
    omega
  refine ⟨?_, hw, ?_⟩
  · rw [hw]
    simp only [List.length_drop]
    omega
  · rw [hw, rollingAverage]
    have hl : (xs.drop k).length = WINDOW_SIZE := by
      simp only [List.length_drop]
      omega
    rw [hl]

/-- Witness for C2 at the push sequence 1..73 of scenario D: the window is
the values 2..73 and the average is their mean over 72. -/
theorem C2_rolling_window_witness :
    (0 < 1) ∧ wxs.length = WINDOW_SIZE + 1 ∧
    ((wxs.foldl pushValue []).length ≤ WINDOW_SIZE ∧
     wxs.foldl pushValue [] = wxs.drop 1 ∧
     rollingAverage (wxs.foldl pushValue [])
       = (wxs.drop 1).sum / (WINDOW_SIZE : ℚ)) :=
  ⟨by decide, by rfl,
   C2_rolling_window wxs 1 (by decide) (by rfl)⟩

/-- C6 as stated is false: the source stores liquidity through the
JavaScript Number() conversion, so a single active position of liquidity
2^53 + 1 (far below 2^64) yields a computed active liquidity of 2^53, not
the exact integer sum. -/
theorem C6_counterexample :
    rawBig.liquidity < 2 ^ 64 ∧
    computeActiveLiquidity ([rawBig].map convertPosition) 0
      ≠ activeRawSum [rawBig] 0 := by
  refine ⟨by decide, ?_⟩
  decide

/-- C6 amended: the per-address active liquidity equals the exact integer
sum of the raw liquidity of the active positions only while the total raw
liquidity stays below 2^53, the float64 safe-integer bound, not up to
2^64. -/
theorem C6_exact_below_two_pow_53 (ps : List RawPosition) (t : Int)
    (hsum : (ps.map RawPosition.liquidity).sum < 2 ^ 53) :
    computeActiveLiquidity (ps.map convertPosition) t = activeRawSum ps t := by
  have h := computeActive_go t ps 0 (by omega)
  simpa [computeActiveLiquidity] using h

/-- Witness for the amended C6 at a single small position. -/
theorem C6_exact_below_two_pow_53_witness :
    ([rawSample].map RawPosition.liquidity).sum < 2 ^ 53 ∧
    computeActiveLiquidity ([rawSample].map convertPosition) 0
      = activeRawSum [rawSample] 0 :=
  ⟨by decide, C6_exact_below_two_pow_53 [rawSample] 0 (by decide)⟩

lemma updateLoopNoPool_ticks (addresses : List String)
    (w : String → List ℚ) :
    ((updateLoopNoPool addresses w).2).map TimeSeriesRecord.currentTick
      = List.replicate addresses.length none := by
  rw [updateLoopNoPool]
  have h := foldl_processAddress_snd (fun _ => (0 : ℚ)) noPoolRecord
    TimeSeriesRecord.currentTick (fun _ => (none : Option Int))
    (fun a q => rfl) addresses w []
  simpa [List.map_const'] using h

lemma runCycles_degraded (pba : String → List Position)
    (addresses : List String) (registry : Except String String)
    (hres : resolvePoolAddress pba addresses registry = none) :
    ∀ (fetches : List (Except String PoolSnapshot)) (w : String → List ℚ)
      (rs0 : List TimeSeriesRecord),
      ((fetches.foldl
          (fun acc fetch =>
            let step := mainCycle pba addresses registry fetch acc.1
            (step.1, acc.2 ++ step.2)) (w, rs0)).2).map
          TimeSeriesRecord.currentTick
        = rs0.map TimeSeriesRecord.currentTick
            ++ List.replicate (fetches.length * addresses.length) none := by
  have hmain : ∀ (fetch : Except String PoolSnapshot)
      (w1 : String → List ℚ),
      mainCycle pba addresses registry fetch w1
        = updateLoopNoPool addresses w1 := by
    intro fetch w1
    rw [mainCycle.eq_def, hres]
  intro fetches
  induction fetches with
  | nil => intro w rs0; simp
  | cons f fs ih =>
    intro w rs0
    rw [List.foldl_cons]
    simp only [hmain] at ih ⊢
    rw [ih, List.map_append, updateLoopNoPool_ticks]
    have hlen : (f :: fs).length * addresses.length
        = addresses.length + fs.length * addresses.length := by
      simp only [List.length_cons]
      ring
    rw [hlen, List.replicate_add, List.append_assoc]

/-- C9: when the startup position scan finds zero filtered positions
across the roster, pool resolution returns no pool for every possible
registry outcome, including a registry that does know a matching live
pool, and every record of every subsequent cycle of the run is a degraded
no-pool record carrying the N/A tick marker. -/
theorem C9_empty_positions_degraded (pba : String → List Position)
    (addresses : List String) (registry : Except String String)
    (fetches : List (Except String PoolSnapshot)) (w : String → List ℚ)
    (h : totalPositions pba addresses = 0) :
    getTargetPoolAddress pba addresses registry = Except.ok none ∧
    resolvePoolAddress pba addresses registry = none ∧
    ((runCycles pba addresses registry fetches w).2).map
        TimeSeriesRecord.currentTick
      = List.replicate (fetches.length * addresses.length) none := by
  have h1 : getTargetPoolAddress pba addresses registry = Except.ok none := by
    rw [getTargetPoolAddress.eq_def, if_pos h]
  have h2 : resolvePoolAddress pba addresses registry = none := by
    rw [resolvePoolAddress.eq_def, h1]
  refine ⟨h1, h2, ?_⟩
  have h3 := runCycles_degraded pba addresses registry h2 fetches w []
  simpa [runCycles] using h3

/-- Witness for C9: an empty position cache for the one-address roster, a
registry that does return a live pool, and one cycle whose fetch would
even have succeeded; the resolution still returns none and the sole record
is a no-pool record. -/
theorem C9_empty_positions_degraded_witness :
    totalPositions (fun _ => []) ["0xabc"] = 0 ∧
    getTargetPoolAddress (fun _ => []) ["0xabc"] registryWithPool
      = Except.ok none ∧
    resolvePoolAddress (fun _ => []) ["0xabc"] registryWithPool = none ∧
    ((runCycles (fun _ => []) ["0xabc"] registryWithPool
        [Except.ok liveSnap] emptyWindows).2).map
        TimeSeriesRecord.currentTick
      = List.replicate (1 * 1) none := by
  have h : totalPositions (fun _ => []) ["0xabc"] = 0 := rfl
  have hc := C9_empty_positions_degraded (fun _ => []) ["0xabc"]
    registryWithPool [Except.ok liveSnap] emptyWindows h
  exact ⟨h, hc.1, hc.2.1, hc.2.2⟩
